import Mathlib

/-!
Verification of the zingela-africa-locate frontend services: a shallow
embedding of the Traccar REST client (`traccarApi.ts`), the reconnecting
WebSocket client (`traccarWebSocket.ts`), the command store
(`commands.ts`) and the immobilisation request workflow
(`DeviceCard.tsx`, `ImmobilisationModal`), together with theorems about
their specified behaviour.
-/

namespace ZingelaLocate

/-- Authentication method of a Traccar connection configuration, modelling
`authMethod: 'token' | 'basic'` from `models/types.ts`. -/
inductive AuthMethod where
  | token
  | basic
deriving DecidableEq, Repr

/-- Connection configuration, modelling `TraccarConfig` from
`models/types.ts`.  Optional fields are `Option`; a present-but-empty
string (`some ""`) is distinguished from an absent one (`none`), matching
JavaScript truthiness checks. -/
structure TraccarConfig where
  serverUrl : String
  authMethod : AuthMethod
  apiToken : Option String := none
  username : Option String := none
  password : Option String := none
  organizationId : String := ""
  isValid : Bool := true
deriving DecidableEq, Repr

/-- Truthiness of an optional string field in JavaScript: the field is
present and non-empty. -/
def truthy (o : Option String) : Bool := o.getD "" ≠ ""

/-! ## Realtime endpoint derivation (traccarWebSocket.ts, connect, lines 46–53)

URLs are modelled as lists of characters. -/

/-- Replacement of an anchored pattern at the start of a string, modelling
a JavaScript `replace(/^pat/, repl)` call: if `pat` occurs at the start it
is replaced by `repl`, otherwise the string is unchanged. -/
def replaceLeading (pat repl s : List Char) : List Char :=
  if pat.isPrefixOf s then repl ++ s.drop pat.length else s

/-- Removal of one trailing slash, modelling `replace(/\/$/, '')`. -/
def dropTrailingSlash (s : List Char) : List Char :=
  if s.getLast? = some '/' then s.dropLast else s

/-- Realtime endpoint derivation from `TraccarWebSocketClient.connect`:
`config.serverUrl.replace(/^http:/, 'ws:').replace(/^https:/, 'wss:').replace(/\/$/, '') + '/api/socket'`. -/
def deriveWsUrl (serverUrl : List Char) : List Char :=
  dropTrailingSlash
    (replaceLeading "https:".toList "wss:".toList
      (replaceLeading "http:".toList "ws:".toList serverUrl))
    ++ "/api/socket".toList

/-- Scheme substitution exactly as the specification words it: the scheme
http becomes ws, https becomes wss, anything else is left unchanged. -/
def substituteSchemeSpec (s : List Char) : List Char :=
  if "http:".toList.isPrefixOf s then "ws:".toList ++ s.drop 5
  else if "https:".toList.isPrefixOf s then "wss:".toList ++ s.drop 6
  else s

/-- Endpoint derivation as the specification words it: substitute the
scheme, strip one trailing slash, append the fixed suffix. -/
def deriveWsUrlSpec (s : List Char) : List Char :=
  dropTrailingSlash (substituteSchemeSpec s) ++ "/api/socket".toList

/-! ## JavaScript string primitives used by the workflow -/

/-- Uppercasing of one character as `String.prototype.toUpperCase` does on
the ASCII range (the only range the workflow compares against). -/
def asciiUpper (c : Char) : Char :=
  if 'a' ≤ c ∧ c ≤ 'z' then Char.ofNat (c.toNat - 32) else c

/-- models `s.toUpperCase()` on a string of ASCII characters. -/
def jsToUpper (s : List Char) : List Char := s.map asciiUpper

/-- models `s.trim()`: removes whitespace from both ends. -/
def jsTrim (s : List Char) : List Char :=
  ((s.dropWhile Char.isWhitespace).reverse.dropWhile Char.isWhitespace).reverse

/-! ## REST auth headers (traccarApi.ts, getAuthHeaders, lines 42–55) -/

/-- Alphabet of standard base64. -/
def b64Alphabet : List Char :=
  "ABCDEFGHIJKLMNOPQRSTUVWXYZabcdefghijklmnopqrstuvwxyz0123456789+/".toList

/-- Digit of standard base64 at index `n`. -/
def b64Digit (n : Nat) : Char := b64Alphabet.getD n '='

/-- Base64 encoding of a byte sequence, three bytes at a time, with `=`
padding, as performed by the browser `btoa` builtin. -/
def btoaBytes : List Nat → List Char
  | [] => []
  | [b1] => [b64Digit (b1 / 4), b64Digit (b1 % 4 * 16), '=', '=']
  | [b1, b2] => [b64Digit (b1 / 4), b64Digit (b1 % 4 * 16 + b2 / 16), b64Digit (b2 % 16 * 4), '=']
  | b1 :: b2 :: b3 :: rest =>
      b64Digit (b1 / 4) :: b64Digit (b1 % 4 * 16 + b2 / 16) ::
      b64Digit (b2 % 16 * 4 + b3 / 64) :: b64Digit (b3 % 64) :: btoaBytes rest

/-- Browser `btoa` on a latin-1 string: base64 of its code points. -/
def btoa (s : String) : String := ⟨btoaBytes (s.toList.map Char.toNat)⟩

/-- Headers object built by `getAuthHeaders`: a fixed content type plus an
optional `Authorization` entry. -/
structure HeadersRec where
  contentType : String
  authorization : Option String
deriving DecidableEq, Repr

/-- models `getAuthHeaders(config)` from `traccarApi.ts`: always sets
`Content-Type: application/json`; adds `Authorization: Bearer <token>` when
`authMethod === 'token' && config.apiToken` (JS truthiness), else
`Authorization: Basic <btoa(username:password)>` when
`authMethod === 'basic' && config.username && config.password`. -/
def getAuthHeaders (config : TraccarConfig) : HeadersRec :=
  let base : HeadersRec := { contentType := "application/json", authorization := none }
  if config.authMethod = .token ∧ truthy config.apiToken then
    { base with authorization := some ("Bearer " ++ config.apiToken.getD "") }
  else if config.authMethod = .basic ∧ truthy config.username ∧ truthy config.password then
    { base with
      authorization := some ("Basic " ++ btoa (config.username.getD "" ++ ":" ++ config.password.getD "")) }
  else base

/-! ## REST error mapping (traccarApi.ts, apiRequest, lines 58–89) -/

/-- Observable part of a fetch `Response`: the HTTP status code and
status text. -/
structure HttpResponse where
  status : Nat
  statusText : String
deriving DecidableEq, Repr

/-- models `Response.ok` from the fetch standard: status in the inclusive
range 200–299. -/
def HttpResponse.ok (r : HttpResponse) : Bool := 200 ≤ r.status ∧ r.status ≤ 299

/-- models the response handling of `apiRequest` (lines 78–88): on a
non-ok response throw the mapped error (401, 404, or a generic message
carrying status code and text); on an ok response return the parsed
body. -/
def apiHandleResponse (r : HttpResponse) (body : String) : Except String String :=
  if ¬ r.ok then
    if r.status = 401 then
      .error "Authentication failed. Please check your Traccar credentials."
    else if r.status = 404 then
      .error "Resource not found."
    else
      .error ("Traccar API error: " ++ toString r.status ++ " " ++ r.statusText)
  else .ok body

/-! ## Concrete example configurations -/

/-- Example token-auth configuration from the specification scenario. -/
def cfgTokenEx : TraccarConfig :=
  { serverUrl := "https://x.test", authMethod := .token, apiToken := some "abc",
    organizationId := "org1" }

/-- Example basic-auth configuration. -/
def cfgBasicEx : TraccarConfig :=
  { serverUrl := "https://x.test", authMethod := .basic, username := some "user",
    password := some "pass", organizationId := "org1" }

/-! ## Realtime client state machine (traccarWebSocket.ts, TraccarWebSocketClient)

Messages handlers are modelled separately (see `subscribeH`); the state
below holds the remaining fields of the class, plus three observation
fields: `pendingTimers` counts reconnect timeouts that have been scheduled
by `setTimeout` and have not yet fired, `scheduledDelays` logs the delay of
every scheduled reconnect in order, and `socketsCreated` counts evaluations
of `new WebSocket(wsUrl)`, i.e. actual connection attempts. -/

/-- readyState of the browser WebSocket owned by the client, as far as the
client observes it. -/
inductive ReadyState where
  | connecting
  | opened
  | closed
deriving DecidableEq, Repr

/-- State of a `TraccarWebSocketClient` instance. -/
structure WsClient where
  ws : Option ReadyState
  config : Option TraccarConfig
  reconnectAttempts : Nat
  isConnecting : Bool
  pendingTimers : Nat
  scheduledDelays : List Nat
  socketsCreated : Nat
deriving DecidableEq, Repr

/-- models the class field `maxReconnectAttempts = 5`. -/
def maxReconnectAttempts : Nat := 5

/-- models the class field `reconnectDelay = 3000`. -/
def reconnectDelay : Nat := 3000

/-- models `attemptReconnect()` (lines 90–107): returns unchanged when the
attempt cap is reached or no config is stored; otherwise increments the
counter and schedules a timer with delay
`reconnectDelay * 2 ^ (reconnectAttempts - 1)` computed after the
increment. -/
def attemptReconnect (s : WsClient) : WsClient :=
  if maxReconnectAttempts ≤ s.reconnectAttempts then s
  else
    match s.config with
    | none => s
    | some _ =>
        { s with
          reconnectAttempts := s.reconnectAttempts + 1,
          pendingTimers := s.pendingTimers + 1,
          scheduledDelays :=
            s.scheduledDelays ++ [reconnectDelay * 2 ^ (s.reconnectAttempts + 1 - 1)] }

/-- models the body of `connect(config)` (lines 38–85) invoked with
argument `c`; `c = none` models the timer callback invoking
`connect(this.config!)` after `disconnect` nulled the config, in which case
reading `config.serverUrl` throws and the catch block runs.  `ctorThrows`
tells whether `new WebSocket(wsUrl)` throws synchronously; when it does,
the catch block clears the connecting flag and calls `attemptReconnect`. -/
def connectBody (s : WsClient) (c : Option TraccarConfig) (ctorThrows : Bool) : WsClient :=
  if s.isConnecting ∨ s.ws = some .opened then s
  else
    let s1 := { s with config := c, isConnecting := true }
    match c with
    | none => attemptReconnect { s1 with isConnecting := false }
    | some _ =>
        if ctorThrows then attemptReconnect { s1 with isConnecting := false }
        else { s1 with ws := some .connecting, socketsCreated := s1.socketsCreated + 1 }

/-- Events driving a `TraccarWebSocketClient`: explicit `connect(config)`
calls, the firing of a scheduled reconnect timeout (which invokes
`connect(this.config!)`), the socket events `onopen` / `onerror` /
`onclose` of the currently owned socket, the close event of an abandoned
socket whose handlers are still attached (possible at any point, an
over-approximation of the environment), and explicit `disconnect()`
calls. -/
inductive WsEv where
  | connectCall (c : TraccarConfig) (ctorThrows : Bool)
  | timerFire (ctorThrows : Bool)
  | openEv
  | errorEv
  | closeEv
  | staleCloseEv
  | disconnectCall
deriving DecidableEq, Repr

/-- Distinguishes an explicit `connect` call from all internally generated
events. -/
def WsEv.isExplicitConnect : WsEv → Bool
  | .connectCall _ _ => true
  | _ => false

/-- Step function of the client: the handler bodies from lines 55–84
(`onopen` clears the connecting flag and resets the attempt counter,
`onerror` only clears the connecting flag, `onclose` clears the flag and
calls `attemptReconnect`), the timer callback from lines 103–106, and
`disconnect()` from lines 183–191 (closes and drops the socket, clears the
stored config, resets the attempt counter; it does not clear any pending
timeout and does not touch the connecting flag). -/
def wsStep (e : WsEv) (s : WsClient) : WsClient :=
  match e with
  | .connectCall c th => connectBody s (some c) th
  | .timerFire th =>
      if s.pendingTimers = 0 then s
      else connectBody { s with pendingTimers := s.pendingTimers - 1 } s.config th
  | .openEv =>
      if s.ws = some .connecting then
        { s with ws := some .opened, isConnecting := false, reconnectAttempts := 0 }
      else s
  | .errorEv =>
      if s.ws = some .connecting ∨ s.ws = some .opened then
        { s with isConnecting := false }
      else s
  | .closeEv =>
      if s.ws = some .connecting ∨ s.ws = some .opened then
        attemptReconnect { s with ws := some .closed, isConnecting := false }
      else s
  | .staleCloseEv => attemptReconnect { s with isConnecting := false }
  | .disconnectCall => { s with ws := none, config := none, reconnectAttempts := 0 }

/-- Run of the client over a list of events. -/
def wsRun (evs : List WsEv) (s : WsClient) : WsClient :=
  evs.foldl (fun st e => wsStep e st) s

/-- Example client state: connected, with the token example config stored,
no failures so far. -/
def wsConnectedEx : WsClient :=
  { ws := some .opened, config := some cfgTokenEx, reconnectAttempts := 0,
    isConnecting := false, pendingTimers := 0, scheduledDelays := [], socketsCreated := 1 }

/-- Example client state with one scheduled reconnect pending. -/
def wsPendingEx : WsClient :=
  { ws := some .closed, config := some cfgTokenEx, reconnectAttempts := 1,
    isConnecting := false, pendingTimers := 1, scheduledDelays := [3000], socketsCreated := 1 }

/-- Example client state in the middle of a reconnection attempt. -/
def wsReconnEx : WsClient :=
  { ws := some .connecting, config := some cfgTokenEx, reconnectAttempts := 2,
    isConnecting := true, pendingTimers := 0, scheduledDelays := [3000, 6000],
    socketsCreated := 2 }

/-- Example client state whose retry budget is exhausted. -/
def wsExhaustedEx : WsClient :=
  { ws := some .closed, config := some cfgTokenEx, reconnectAttempts := 5,
    isConnecting := false, pendingTimers := 0,
    scheduledDelays := [3000, 6000, 12000, 24000, 48000], socketsCreated := 6 }

/-! ## Command model (models/types.ts) and command store (commands.ts) -/

/-- Command type, modelling `type: 'IMMOBILISE' | 'RESTORE_POWER'`. -/
inductive CommandType where
  | IMMOBILISE
  | RESTORE_POWER
deriving DecidableEq, Repr, Inhabited

/-- Command status, modelling
`status: 'requested' | 'pending' | 'executed' | 'failed' | 'cancelled'`. -/
inductive CommandStatus where
  | requested
  | pending
  | executed
  | failed
  | cancelled
deriving DecidableEq, Repr, Inhabited

/-- Stored command record, modelling `Command` from `models/types.ts`. -/
structure Command where
  id : String
  type : CommandType
  status : CommandStatus
  deviceId : Nat
  organizationId : String
  userId : String
  reason : String
  timestamp : String
  executedAt : Option String := none
  notes : Option String := none
deriving DecidableEq, Repr, Inhabited

/-- models `Partial<Command>`: every field optionally present.  A present
field of the patch overrides the corresponding field of the record under
the object spread `{ ...orig, ...updates }`. -/
structure CommandPatch where
  id : Option String := none
  type : Option CommandType := none
  status : Option CommandStatus := none
  deviceId : Option Nat := none
  organizationId : Option String := none
  userId : Option String := none
  reason : Option String := none
  timestamp : Option String := none
  executedAt : Option String := none
  notes : Option String := none
deriving DecidableEq, Repr

/-- models the object spread `{ ...allCommands[index], ...updates }` from
`updateCommand` (commands.ts line 89): every field present in the patch
overrides the stored field, including `id`. -/
def mergeCommand (c : Command) (u : CommandPatch) : Command :=
  { id := u.id.getD c.id,
    type := u.type.getD c.type,
    status := u.status.getD c.status,
    deviceId := u.deviceId.getD c.deviceId,
    organizationId := u.organizationId.getD c.organizationId,
    userId := u.userId.getD c.userId,
    reason := u.reason.getD c.reason,
    timestamp := u.timestamp.getD c.timestamp,
    executedAt := match u.executedAt with | some v => some v | none => c.executedAt,
    notes := match u.notes with | some v => some v | none => c.notes }

/-- models `updateCommand(id, updates)` (commands.ts lines 80–95) on a
parsed command log: find the index of the first record whose id matches,
return the log unchanged with `null` when there is none, otherwise replace
the record at that index by the spread-merge and return the new log and
the merged record. -/
def updateCommand (log : List Command) (i : String) (u : CommandPatch) :
    List Command × Option Command :=
  match log.findIdx? (fun c => c.id == i) with
  | none => (log, none)
  | some ix =>
      let merged := mergeCommand (log.getD ix default) u
      (log.set ix merged, some merged)

/-- Specification-side update: merges the fields into the first existing
record matching the id, leaving the rest of the log untouched, and is a
no-op returning no record when no record matches. -/
def updateFirst : List Command → String → CommandPatch → List Command × Option Command
  | [], _, _ => ([], none)
  | c :: rest, i, u =>
      if c.id = i then (mergeCommand c u :: rest, some (mergeCommand c u))
      else
        let r := updateFirst rest i u
        (c :: r.1, r.2)

/-- Example stored command. -/
def cmdA : Command :=
  { id := "a", type := .IMMOBILISE, status := .requested, deviceId := 7,
    organizationId := "org1", userId := "u1", reason := "test",
    timestamp := "2024-01-01T00:00:00Z" }

/-- Example patch that carries an `id` field. -/
def patchB : CommandPatch := { id := some "b", status := some .executed }

/-! ## Request workflow state machine (DeviceCard.tsx, ImmobilisationModal)

States and events of the three-step modal.  Only controls that are
actually rendered at the current step can be operated: the checklist boxes
exist only at step 1, the reason textarea only at step 2 and the
confirmation input only at step 3, so the corresponding events are no-ops
at any other step.  Strings typed by the user are lists of characters. -/

/-- Checklist state, modelling the `checklist` useState record. -/
structure Checklist where
  vehicleStationary : Bool
  userAuthorized : Bool
  actionAudited : Bool
deriving DecidableEq, Repr

/-- Keys of the checklist record. -/
inductive ChecklistKey where
  | vehicleStationary
  | userAuthorized
  | actionAudited
deriving DecidableEq, Repr

/-- models `handleChecklistChange`: flips one checklist entry. -/
def Checklist.toggle (c : Checklist) : ChecklistKey → Checklist
  | .vehicleStationary => { c with vehicleStationary := !c.vehicleStationary }
  | .userAuthorized => { c with userAuthorized := !c.userAuthorized }
  | .actionAudited => { c with actionAudited := !c.actionAudited }

/-- Argument of `createCommand` passed by `handleSubmit`, modelling
`Omit<Command, 'id' | 'timestamp'>`. -/
structure CommandRequest where
  type : CommandType
  status : CommandStatus
  deviceId : Nat
  organizationId : String
  userId : String
  reason : List Char
deriving DecidableEq, Repr

/-- State of the `ImmobilisationModal` component plus the log `created` of
command requests it has passed to `createCommand`. -/
structure ModalState where
  step : Nat
  checklist : Checklist
  reason : List Char
  confirmation : List Char
  created : List CommandRequest
deriving DecidableEq, Repr

/-- Initial modal state: step 1, nothing checked, no text entered. -/
def initialModal : ModalState :=
  { step := 1, checklist := ⟨false, false, false⟩, reason := [], confirmation := [],
    created := [] }

/-- models `requiredConfirmation = isImmobilise ? 'IMMOBILISE' : 'RESTORE POWER'`. -/
def requiredConfirmation (t : CommandType) : List Char :=
  if t = .IMMOBILISE then "IMMOBILISE".toList else "RESTORE POWER".toList

/-- models `canProceed` (DeviceCard.tsx lines 73–77): at step 1 all three
checklist entries, at step 2 a reason that is non-empty after trimming, at
any other step equality of the typed confirmation with the required
phrase. -/
def canProceed (t : CommandType) (s : ModalState) : Bool :=
  if s.step = 1 then
    s.checklist.vehicleStationary && s.checklist.userAuthorized && s.checklist.actionAudited
  else if s.step = 2 then
    0 < (jsTrim s.reason).length
  else
    s.confirmation = requiredConfirmation t

/-- User actions on the modal: toggling a checklist box, editing the
reason, typing into the confirmation input (stored uppercased, modelling
`setConfirmation(e.target.value.toUpperCase())`), the Next, Back and
submit buttons, and closing the modal. -/
inductive ModalEv where
  | toggle (k : ChecklistKey)
  | setReason (r : List Char)
  | setConfirmation (c : List Char)
  | next
  | back
  | submit
  | close
deriving DecidableEq, Repr

/-- Step function of the modal for command type `t` on device `dev`,
organization `org` and user `user`.  Next is enabled only when
`canProceed` holds and the step is below 3 (the button is rendered only
then); Back only above step 1; submit only at step 3 with `canProceed`
(the button is disabled otherwise and `handleSubmit` rechecks the guard),
and a successful submission appends the created request and resets the
modal as `handleClose` does; closing resets all inputs. -/
def modalStep (t : CommandType) (dev : Nat) (org user : String) (e : ModalEv)
    (s : ModalState) : ModalState :=
  match e with
  | .toggle k => if s.step = 1 then { s with checklist := s.checklist.toggle k } else s
  | .setReason r => if s.step = 2 then { s with reason := r } else s
  | .setConfirmation c => if s.step = 3 then { s with confirmation := jsToUpper c } else s
  | .next => if s.step < 3 ∧ canProceed t s then { s with step := s.step + 1 } else s
  | .back => if 1 < s.step then { s with step := s.step - 1 } else s
  | .submit =>
      if s.step = 3 ∧ canProceed t s then
        { initialModal with
          created := s.created ++
            [{ type := t, status := .requested, deviceId := dev, organizationId := org,
               userId := user, reason := jsTrim s.reason }] }
      else s
  | .close => { initialModal with created := s.created }

/-- Run of the modal over a list of user actions. -/
def modalRun (t : CommandType) (dev : Nat) (org user : String) (evs : List ModalEv)
    (s : ModalState) : ModalState :=
  evs.foldl (fun st e => modalStep t dev org user e st) s

/-- Invariant of the modal: past step 1 the checklist is fully affirmed,
and at step 3 the reason is non-empty after trimming. -/
def ModalInv (s : ModalState) : Prop :=
  (2 ≤ s.step →
    s.checklist.vehicleStationary ∧ s.checklist.userAuthorized ∧ s.checklist.actionAudited)
  ∧ (3 ≤ s.step → 0 < (jsTrim s.reason).length)

/-- Example action sequence completing the workflow for IMMOBILISE. -/
def evsC1 : List ModalEv :=
  [.toggle .vehicleStationary, .toggle .userAuthorized, .toggle .actionAudited, .next,
   .setReason " Suspected theft ".toList, .next, .setConfirmation "immobilise".toList]

/-- Modal state reached by `evsC1`. -/
def sC1 : ModalState := modalRun .IMMOBILISE 7 "org1" "u1" evsC1 initialModal

/-! ## Handler registry (traccarWebSocket.ts, subscribe / notifyHandlers)

Handlers are identified by ids; the registry
`Map<WebSocketMessageType, Set<MessageHandler>>` is modelled as a function
from message type to the list of handler ids in insertion order, with JS
`Set` semantics: adding an element already present is a no-op, deleting
removes it. -/

/-- Kinds of inbound realtime messages. -/
inductive MsgType where
  | positions
  | devices
  | events
deriving DecidableEq, Repr

/-- models `subscribe(type, handler)` (lines 165–169): `Set.add` on the
set stored under the type. -/
def subscribeH (m : MsgType → List Nat) (t : MsgType) (h : Nat) : MsgType → List Nat :=
  fun t2 => if t2 = t then (if h ∈ m t then m t else m t ++ [h]) else m t2

/-- models the returned unsubscribe closure (lines 172–177): `Set.delete`
of that handler on the set stored under the type. -/
def unsubscribeH (m : MsgType → List Nat) (t : MsgType) (h : Nat) : MsgType → List Nat :=
  fun t2 => if t2 = t then (m t).erase h else m t2

/-- models `notifyHandlers(type, data)` (lines 128–139): the handlers
invoked for one inbound message of the given kind, in registration
order. -/
def notifyOrder (m : MsgType → List Nat) (t : MsgType) : List Nat := m t

/-- Example empty handler registry. -/
def hreg0 : MsgType → List Nat := fun _ => []

/-! ## Theorems for the REST client and endpoint derivation -/

theorem scheme_chain_eq (s : List Char) :
    replaceLeading "https:".toList "wss:".toList
      (replaceLeading "http:".toList "ws:".toList s) = substituteSchemeSpec s := by
  unfold replaceLeading substituteSchemeSpec
  by_cases h1 : "http:".toList.isPrefixOf s
  · have hlen : ("http:".toList).length = 5 := by decide
    simp only [h1, if_true, hlen]
    have h2 : ("https:".toList.isPrefixOf ("ws:".toList ++ s.drop 5)) = false := by
      simp [List.isPrefixOf]
    simp [h2]
  · simp only [h1]
    by_cases h2 : "https:".toList.isPrefixOf s
    · simp [h1, h2]
    · simp [h1, h2]

/-- C6: for every configured base URL, the realtime endpoint is derived by
substituting the URL scheme http→ws and https→wss, stripping a trailing
slash, and appending the fixed suffix `/api/socket`; in particular, for
serverUrl `https://x.test` the derived endpoint is exactly
`wss://x.test/api/socket`. -/
theorem C6_ws_endpoint_derivation :
    (∀ s : List Char, deriveWsUrl s = deriveWsUrlSpec s)
    ∧ deriveWsUrl "https://x.test".toList = "wss://x.test/api/socket".toList := by
  constructor
  · intro s
    unfold deriveWsUrl deriveWsUrlSpec
    rw [scheme_chain_eq]
  · decide

/-- C7: for every valid configuration with token auth and a present (and,
per JS truthiness, non-empty) apiToken the Authorization header is exactly
`Bearer <token>`; with basic auth and present username and password it is
exactly `Basic <base64(username:password)>`. -/
theorem C7_auth_header_mapping :
    (∀ (cfg : TraccarConfig) (t : String), cfg.authMethod = .token →
      cfg.apiToken = some t → t ≠ "" →
      (getAuthHeaders cfg).authorization = some ("Bearer " ++ t))
    ∧ (∀ (cfg : TraccarConfig) (u p : String), cfg.authMethod = .basic →
        cfg.username = some u → cfg.password = some p → u ≠ "" → p ≠ "" →
        (getAuthHeaders cfg).authorization = some ("Basic " ++ btoa (u ++ ":" ++ p))) := by
  constructor
  · intro cfg t hm ht hne
    simp [getAuthHeaders, truthy, hm, ht, hne]
  · intro cfg u p hm hu hp hne1 hne2
    simp [getAuthHeaders, truthy, hm, hu, hp, hne1, hne2]

/-- Witness for C7 at the two example configurations; the basic-auth header
evaluates to the concrete base64 of `user:pass`. -/
theorem C7_auth_header_mapping_witness :
    (getAuthHeaders cfgTokenEx).authorization = some ("Bearer " ++ "abc")
    ∧ (getAuthHeaders cfgBasicEx).authorization = some ("Basic " ++ btoa ("user" ++ ":" ++ "pass"))
    ∧ btoa ("user" ++ ":" ++ "pass") = "dXNlcjpwYXNz" :=
  ⟨C7_auth_header_mapping.1 cfgTokenEx "abc" rfl rfl (by decide),
   C7_auth_header_mapping.2 cfgBasicEx "user" "pass" rfl rfl rfl (by decide) (by decide),
   by decide⟩

/-- C8: a non-2xx response raises the mapped error — 401 an authentication
failure, 404 a not-found error, anything else a generic API error carrying
the status code and status text — and a 2xx response raises no error and
returns the parsed body. -/
theorem C8_rest_error_mapping :
    ∀ (r : HttpResponse) (body : String),
      (r.status = 401 → apiHandleResponse r body =
        .error "Authentication failed. Please check your Traccar credentials.")
      ∧ (r.status = 404 → apiHandleResponse r body = .error "Resource not found.")
      ∧ (¬ r.ok → r.status ≠ 401 → r.status ≠ 404 →
          apiHandleResponse r body =
            .error ("Traccar API error: " ++ toString r.status ++ " " ++ r.statusText))
      ∧ (r.ok → apiHandleResponse r body = .ok body) := by
  intro r body
  refine ⟨?_, ?_, ?_, ?_⟩
  · intro h
    simp [apiHandleResponse, HttpResponse.ok, h]
  · intro h
    simp [apiHandleResponse, HttpResponse.ok, h]
  · intro hok h1 h4
    simp [apiHandleResponse, hok, h1, h4]
  · intro hok
    simp [apiHandleResponse, hok]

/-- Witness for C8 at four concrete responses: 401, 404, a generic 500 and
a successful 200. -/
theorem C8_rest_error_mapping_witness :
    apiHandleResponse ⟨401, "Unauthorized"⟩ "b" =
      .error "Authentication failed. Please check your Traccar credentials."
    ∧ apiHandleResponse ⟨404, "Not Found"⟩ "b" = .error "Resource not found."
    ∧ apiHandleResponse ⟨500, "Server Error"⟩ "b" =
        .error ("Traccar API error: " ++ toString 500 ++ " " ++ "Server Error")
    ∧ apiHandleResponse ⟨200, "OK"⟩ "b" = .ok "b" :=
  ⟨(C8_rest_error_mapping ⟨401, "Unauthorized"⟩ "b").1 rfl,
   (C8_rest_error_mapping ⟨404, "Not Found"⟩ "b").2.1 rfl,
   (C8_rest_error_mapping ⟨500, "Server Error"⟩ "b").2.2.1 (by decide) (by decide) (by decide),
   (C8_rest_error_mapping ⟨200, "OK"⟩ "b").2.2.2 (by decide)⟩

/-! ## Theorems for the request workflow -/

theorem modalInv_initial : ModalInv initialModal := by
  simp [ModalInv, initialModal]

theorem modalInv_step (t : CommandType) (dev : Nat) (org user : String) (e : ModalEv)
    (s : ModalState) (h : ModalInv s) : ModalInv (modalStep t dev org user e s) := by
  obtain ⟨h1, h2⟩ := h
  cases e with
  | toggle k =>
      simp only [modalStep]
      split
      · rename_i hs
        refine ⟨fun hge => ?_, fun hge => ?_⟩ <;> (dsimp only at hge; omega)
      · exact ⟨h1, h2⟩
  | setReason r =>
      simp only [modalStep]
      split
      · rename_i hs
        refine ⟨fun hge => ?_, fun hge => ?_⟩
        · exact h1 (by dsimp only at hge; omega)
        · dsimp only at hge; omega
      · exact ⟨h1, h2⟩
  | setConfirmation c =>
      simp only [modalStep]
      split
      · refine ⟨fun hge => h1 (by dsimp only at hge; omega),
          fun hge => h2 (by dsimp only at hge; omega)⟩
      · exact ⟨h1, h2⟩
  | next =>
      simp only [modalStep]
      split
      · rename_i hg
        obtain ⟨hlt, hcp⟩ := hg
        constructor
        · intro hge
          dsimp only at hge ⊢
          rcases Nat.lt_or_ge s.step 2 with hcase | hcase
          · have hs1 : s.step = 1 := by omega
            simp [canProceed, hs1, Bool.and_eq_true] at hcp
            exact ⟨hcp.1.1, hcp.1.2, hcp.2⟩
          · exact h1 hcase
        · intro hge
          dsimp only at hge ⊢
          have hs2 : s.step = 2 := by omega
          simpa [canProceed, hs2] using hcp
      · exact ⟨h1, h2⟩
  | back =>
      simp only [modalStep]
      split
      · refine ⟨fun hge => h1 (by dsimp only at hge; omega),
          fun hge => h2 (by dsimp only at hge; omega)⟩
      · exact ⟨h1, h2⟩
  | submit =>
      simp only [modalStep]
      split
      · refine ⟨fun hge => ?_, fun hge => ?_⟩ <;> (dsimp only [initialModal] at hge; omega)
      · exact ⟨h1, h2⟩
  | close =>
      simp only [modalStep]
      refine ⟨fun hge => ?_, fun hge => ?_⟩ <;> (dsimp only [initialModal] at hge; omega)

theorem modalInv_run (t : CommandType) (dev : Nat) (org user : String) :
    ∀ (evs : List ModalEv) (s : ModalState), ModalInv s →
      ModalInv (modalRun t dev org user evs s) := by
  intro evs
  induction evs with
  | nil => intro s h; simpa [modalRun] using h
  | cons e rest ih =>
      intro s h
      have hstep : modalRun t dev org user (e :: rest) s
          = modalRun t dev org user rest (modalStep t dev org user e s) := by
        simp [modalRun]
      rw [hstep]
      exact ih _ (modalInv_step t dev org user e s h)

/-- C1: in the immobilisation modal, whenever handleSubmit creates a
command — i.e. a user action extends the log of created requests — the
state reached by the preceding user actions has the three checklist items
checked, a reason that is non-empty after trimming, and a typed
confirmation equal to the required phrase for the command type. -/
theorem C1_submission_guarded (t : CommandType) (dev : Nat) (org user : String)
    (evs : List ModalEv) (e : ModalEv) (s : ModalState)
    (hreach : s = modalRun t dev org user evs initialModal)
    (hcre : (modalStep t dev org user e s).created.length ≠ s.created.length) :
    (s.checklist.vehicleStationary ∧ s.checklist.userAuthorized ∧ s.checklist.actionAudited)
    ∧ jsTrim s.reason ≠ []
    ∧ s.confirmation = requiredConfirmation t := by
  have hinv : ModalInv s := by
    rw [hreach]
    exact modalInv_run t dev org user evs initialModal modalInv_initial
  cases e with
  | toggle k => exact absurd (by simp only [modalStep]; split <;> rfl) hcre
  | setReason r => exact absurd (by simp only [modalStep]; split <;> rfl) hcre
  | setConfirmation c => exact absurd (by simp only [modalStep]; split <;> rfl) hcre
  | next => exact absurd (by simp only [modalStep]; split <;> rfl) hcre
  | back => exact absurd (by simp only [modalStep]; split <;> rfl) hcre
  | close => exact absurd (by simp only [modalStep]) hcre
  | submit =>
      simp only [modalStep] at hcre
      split at hcre
      · rename_i hg
        obtain ⟨hs3, hcp⟩ := hg
        refine ⟨hinv.1 (by omega), ?_, ?_⟩
        · have hlen := hinv.2 (by omega)
          intro hnil
          rw [hnil] at hlen
          simp at hlen
        · simpa [canProceed, hs3] using hcp
      · exact absurd rfl hcre

/-- Witness for C1: the example action sequence reaches a state from which
the submit button creates a command, and there the three gates hold. -/
theorem C1_submission_guarded_witness :
    (modalStep .IMMOBILISE 7 "org1" "u1" .submit sC1).created.length ≠ sC1.created.length
    ∧ ((sC1.checklist.vehicleStationary ∧ sC1.checklist.userAuthorized
          ∧ sC1.checklist.actionAudited)
        ∧ jsTrim sC1.reason ≠ []
        ∧ sC1.confirmation = requiredConfirmation .IMMOBILISE) :=
  ⟨by decide, C1_submission_guarded .IMMOBILISE 7 "org1" "u1" evsC1 .submit sC1 rfl (by decide)⟩

/-! ## Theorems for the command store update -/

theorem updateCommand_eq_updateFirst (log : List Command) (i : String) (u : CommandPatch) :
    updateCommand log i u = updateFirst log i u := by
  induction log with
  | nil => rfl
  | cons c rest ih =>
      simp only [updateCommand, updateFirst, List.findIdx?_cons, List.findIdx?_succ]
      by_cases hc : c.id = i
      · simp [hc]
      · have hb : (c.id == i) = false := by simp [hc]
        rcases hfind : rest.findIdx? (fun x => x.id == i) with _ | ix
        · rw [← ih]
          simp [updateCommand, hfind, hb, hc]
        · rw [← ih]
          simp [updateCommand, hfind, hb, hc]

theorem updateFirst_no_match :
    ∀ (log : List Command) (i : String) (u : CommandPatch),
      (∀ c ∈ log, c.id ≠ i) → updateFirst log i u = (log, none) := by
  intro log i u h
  induction log with
  | nil => rfl
  | cons c rest ih =>
      have hc : c.id ≠ i := h c (by simp)
      simp only [updateFirst, if_neg hc]
      rw [ih (fun x hx => h x (by simp [hx]))]

theorem updateFirst_some_id :
    ∀ (log : List Command) (i : String) (u : CommandPatch) (r : Command),
      (updateFirst log i u).2 = some r → r.id = u.id.getD i := by
  intro log i u
  induction log with
  | nil => intro r h; simp [updateFirst] at h
  | cons c rest ih =>
      intro r h
      by_cases hc : c.id = i
      · simp only [updateFirst, if_pos hc] at h
        cases h
        cases hu : u.id with
        | none => simp [mergeCommand, hu, hc]
        | some v => simp [mergeCommand, hu]
      · simp only [updateFirst, if_neg hc] at h
        exact ih r h

/-- C2 counterexample: the claim that `updateCommand` can never change a
record's id fails — a patch carrying an `id` field overwrites it, because
the spread `{ ...orig, ...updates }` lets `updates.id` win. -/
theorem C2_update_counterexample :
    (updateCommand [cmdA] "a" patchB).2.map (fun c => c.id) = some "b"
    ∧ cmdA.id = "a" ∧ ("b" : String) ≠ "a" := by decide

/-- C2 amended: `updateCommand` merges the patch into the first record
whose id matches, is a no-op returning `none` when no record matches, and
the returned record's id equals the original id i unless the patch itself
contains an id field, in which case it equals that field's value. -/
theorem C2_update_amended (log : List Command) (i : String) (u : CommandPatch) :
    updateCommand log i u = updateFirst log i u
    ∧ ((∀ c ∈ log, c.id ≠ i) → updateCommand log i u = (log, none))
    ∧ (∀ r, (updateCommand log i u).2 = some r → r.id = u.id.getD i) := by
  refine ⟨updateCommand_eq_updateFirst log i u, ?_, ?_⟩
  · intro h
    rw [updateCommand_eq_updateFirst]
    exact updateFirst_no_match log i u h
  · intro r h
    rw [updateCommand_eq_updateFirst] at h
    exact updateFirst_some_id log i u r h

/-- Witness for C2 amended: on a log without a matching id the update is a
no-op returning no record. -/
theorem C2_update_amended_witness :
    updateCommand [cmdA] "zz" patchB = ([cmdA], none) :=
  (C2_update_amended [cmdA] "zz" patchB).2.1 (by decide)

/-! ## Theorems for the realtime client -/

theorem attemptReconnect_config_none (r : WsClient) (h : r.config = none) :
    attemptReconnect r = r := by
  unfold attemptReconnect
  split
  · rfl
  · simp [h]

theorem attemptReconnect_ge (r : WsClient) (h : maxReconnectAttempts ≤ r.reconnectAttempts) :
    attemptReconnect r = r := by
  simp [attemptReconnect, h]

theorem attemptReconnect_lt (s : WsClient) (hcfg : s.config.isSome = true)
    (h : s.reconnectAttempts < maxReconnectAttempts) :
    attemptReconnect s =
      { s with
        reconnectAttempts := s.reconnectAttempts + 1,
        pendingTimers := s.pendingTimers + 1,
        scheduledDelays := s.scheduledDelays ++ [reconnectDelay * 2 ^ s.reconnectAttempts] } := by
  obtain ⟨c, hc⟩ := Option.isSome_iff_exists.1 hcfg
  simp [attemptReconnect, Nat.not_le.2 h, hc]

theorem attemptReconnect_att_ge (s : WsClient) :
    s.reconnectAttempts ≤ (attemptReconnect s).reconnectAttempts := by
  unfold attemptReconnect
  split
  · exact Nat.le_refl _
  · cases hcfg : s.config <;> simp [hcfg]

theorem connectBody_att_ge (s : WsClient) (c : Option TraccarConfig) (th : Bool) :
    s.reconnectAttempts ≤ (connectBody s c th).reconnectAttempts := by
  cases c with
  | none =>
      simp only [connectBody]
      split
      · exact Nat.le_refl _
      · exact attemptReconnect_att_ge { s with config := none, isConnecting := false }
  | some cfg =>
      simp only [connectBody]
      split
      · exact Nat.le_refl _
      · split
        · exact attemptReconnect_att_ge { s with config := some cfg, isConnecting := false }
        · exact Nat.le_refl _

theorem wsStep_close_capped (s1 : WsClient)
    (h : maxReconnectAttempts ≤ s1.reconnectAttempts) :
    (wsStep .closeEv s1).scheduledDelays = s1.scheduledDelays
    ∧ (wsStep .closeEv s1).pendingTimers = s1.pendingTimers := by
  simp only [wsStep]
  split
  · rw [attemptReconnect_ge { s1 with ws := some .closed, isConnecting := false } h]
    exact ⟨rfl, rfl⟩
  · exact ⟨rfl, rfl⟩

theorem wsStep_inert (e : WsEv) (s : WsClient) (hc : s.config = none) (hw : s.ws = none)
    (he : e.isExplicitConnect = false) :
    (wsStep e s).config = none ∧ (wsStep e s).ws = none
    ∧ (wsStep e s).socketsCreated = s.socketsCreated := by
  cases e with
  | connectCall c th => simp [WsEv.isExplicitConnect] at he
  | timerFire th =>
      simp only [wsStep]
      split
      · exact ⟨hc, hw, rfl⟩
      · rw [hc]
        simp only [connectBody]
        split
        · exact ⟨rfl, hw, rfl⟩
        · rw [attemptReconnect_config_none _ rfl]
          exact ⟨rfl, hw, rfl⟩
  | openEv =>
      simp only [wsStep, hw]
      exact ⟨hc, hw, rfl⟩
  | errorEv =>
      simp only [wsStep, hw]
      exact ⟨hc, hw, rfl⟩
  | closeEv =>
      simp only [wsStep, hw]
      exact ⟨hc, hw, rfl⟩
  | staleCloseEv =>
      simp only [wsStep]
      rw [attemptReconnect_config_none { s with isConnecting := false } hc]
      exact ⟨hc, hw, rfl⟩
  | disconnectCall => exact ⟨rfl, rfl, rfl⟩

theorem wsRun_inert :
    ∀ (evs : List WsEv) (s : WsClient), (∀ e ∈ evs, e.isExplicitConnect = false) →
      s.config = none → s.ws = none →
      (wsRun evs s).config = none ∧ (wsRun evs s).ws = none
      ∧ (wsRun evs s).socketsCreated = s.socketsCreated := by
  intro evs
  induction evs with
  | nil => intro s _ hc hw; exact ⟨hc, hw, rfl⟩
  | cons e rest ih =>
      intro s hno hc hw
      have hstep : wsRun (e :: rest) s = wsRun rest (wsStep e s) := by simp [wsRun]
      obtain ⟨a, b, c2⟩ := wsStep_inert e s hc hw (hno e (by simp))
      obtain ⟨d, f, g⟩ := ih (wsStep e s) (fun x hx => hno x (by simp [hx])) a b
      rw [hstep]
      exact ⟨d, f, g.trans c2⟩

/-- C3: from any client state with a scheduled-but-unfired reconnect,
after `disconnect()` no automatic connection attempt occurs: along any
sequence of internally generated events (timer firings, socket events) —
i.e. until `connect` is called explicitly — no WebSocket is created and
the client owns no socket. -/
theorem C3_disconnect_prevents_reconnect (s : WsClient) (evs : List WsEv)
    (_hp : 0 < s.pendingTimers)
    (hnoc : ∀ e ∈ evs, e.isExplicitConnect = false) :
    (wsRun evs (wsStep .disconnectCall s)).socketsCreated = s.socketsCreated
    ∧ (wsRun evs (wsStep .disconnectCall s)).ws = none := by
  obtain ⟨a, b, c⟩ :=
    wsRun_inert evs (wsStep .disconnectCall s) hnoc rfl rfl
  exact ⟨c, b⟩

/-- Witness for C3: one pending timer, then disconnect, then the timer
fires and the abandoned socket closes; no socket is ever created. -/
theorem C3_disconnect_prevents_reconnect_witness :
    0 < wsPendingEx.pendingTimers
    ∧ ((wsRun [.timerFire false, .staleCloseEv]
          (wsStep .disconnectCall wsPendingEx)).socketsCreated = wsPendingEx.socketsCreated
       ∧ (wsRun [.timerFire false, .staleCloseEv]
            (wsStep .disconnectCall wsPendingEx)).ws = none) :=
  ⟨by decide,
   C3_disconnect_prevents_reconnect wsPendingEx [.timerFire false, .staleCloseEv]
     (by decide) (by decide)⟩

/-- C4 counterexample: in a connected state with a stored config and fewer
than the maximum failed attempts, the error event alone schedules no
reconnect (the `onerror` handler only clears the connecting flag), while
the close event does. -/
theorem C4_error_event_counterexample :
    wsConnectedEx.ws = some .opened
    ∧ wsConnectedEx.config.isSome = true
    ∧ wsConnectedEx.reconnectAttempts < maxReconnectAttempts
    ∧ (wsStep .errorEv wsConnectedEx).pendingTimers = 0
    ∧ (wsStep .errorEv wsConnectedEx).scheduledDelays = []
    ∧ (wsStep .closeEv wsConnectedEx).pendingTimers = 1 := by decide

/-- C4 amended: for every connected or connecting client with a stored
configuration and fewer than the maximum failed attempts, the close event
schedules a reconnect, while the error handler only clears the connecting
flag and schedules nothing itself (reconnection after an error happens via
the close event that follows it). -/
theorem C4_close_schedules_reconnect (s : WsClient)
    (hws : s.ws = some .connecting ∨ s.ws = some .opened)
    (hcfg : s.config.isSome = true)
    (hatt : s.reconnectAttempts < maxReconnectAttempts) :
    (wsStep .closeEv s).scheduledDelays
      = s.scheduledDelays ++ [reconnectDelay * 2 ^ s.reconnectAttempts]
    ∧ (wsStep .closeEv s).pendingTimers = s.pendingTimers + 1
    ∧ wsStep .errorEv s = { s with isConnecting := false } := by
  have hg : s.ws = some ReadyState.connecting ∨ s.ws = some ReadyState.opened := hws
  refine ⟨?_, ?_, ?_⟩
  · simp only [wsStep, if_pos hg]
    rw [attemptReconnect_lt _ (by simpa using hcfg) (by simpa using hatt)]
  · simp only [wsStep, if_pos hg]
    rw [attemptReconnect_lt _ (by simpa using hcfg) (by simpa using hatt)]
  · simp only [wsStep, if_pos hg]

/-- Witness for C4 amended at the connected example state. -/
theorem C4_close_schedules_reconnect_witness :
    (wsStep .closeEv wsConnectedEx).scheduledDelays
      = wsConnectedEx.scheduledDelays ++ [reconnectDelay * 2 ^ wsConnectedEx.reconnectAttempts]
    ∧ (wsStep .closeEv wsConnectedEx).pendingTimers = wsConnectedEx.pendingTimers + 1
    ∧ wsStep .errorEv wsConnectedEx = { wsConnectedEx with isConnecting := false } :=
  C4_close_schedules_reconnect wsConnectedEx (by decide) (by decide) (by decide)

/-- C5: each reconnect scheduled while the counter is below the cap uses
delay `3000 * 2 ^ (attempt - 1)` (the attempt number after the increment);
once the counter reaches the cap `attemptReconnect` schedules nothing; and
from a fresh state five consecutive failures schedule exactly the delays
[3000, 6000, 12000, 24000, 48000], after which a sixth call is a no-op. -/
theorem C5_backoff_delay_sequence :
    (∀ s : WsClient, s.config.isSome = true →
      s.reconnectAttempts < maxReconnectAttempts →
      (attemptReconnect s).scheduledDelays
        = s.scheduledDelays ++ [reconnectDelay * 2 ^ s.reconnectAttempts]
      ∧ (attemptReconnect s).reconnectAttempts = s.reconnectAttempts + 1)
    ∧ (∀ s : WsClient, maxReconnectAttempts ≤ s.reconnectAttempts → attemptReconnect s = s)
    ∧ (∀ s : WsClient, s.config.isSome = true → s.reconnectAttempts = 0 →
        s.scheduledDelays = [] →
        (attemptReconnect (attemptReconnect (attemptReconnect (attemptReconnect
          (attemptReconnect s))))).scheduledDelays = [3000, 6000, 12000, 24000, 48000]
        ∧ attemptReconnect (attemptReconnect (attemptReconnect (attemptReconnect
            (attemptReconnect (attemptReconnect s)))))
          = attemptReconnect (attemptReconnect (attemptReconnect (attemptReconnect
              (attemptReconnect s))))) := by
  refine ⟨?_, ?_, ?_⟩
  · intro s hcfg hatt
    rw [attemptReconnect_lt s hcfg hatt]
    exact ⟨rfl, rfl⟩
  · intro s h
    exact attemptReconnect_ge s h
  · intro s hcfg hatt hsd
    obtain ⟨ws, cfg, att, ic, pt, sd, sc⟩ := s
    obtain ⟨c, hc⟩ := Option.isSome_iff_exists.1 hcfg
    dsimp only at hatt hsd hc
    subst hatt hsd hc
    norm_num [attemptReconnect, maxReconnectAttempts, reconnectDelay]

/-- Witness for C5 at the connected example state: one failure schedules a
3000 ms reconnect; iterating from a fresh state yields the full delay
sequence and then stops. -/
theorem C5_backoff_delay_sequence_witness :
    ((attemptReconnect wsConnectedEx).scheduledDelays
        = wsConnectedEx.scheduledDelays ++ [reconnectDelay * 2 ^ wsConnectedEx.reconnectAttempts]
      ∧ (attemptReconnect wsConnectedEx).reconnectAttempts
        = wsConnectedEx.reconnectAttempts + 1)
    ∧ attemptReconnect wsExhaustedEx = wsExhaustedEx
    ∧ (attemptReconnect (attemptReconnect (attemptReconnect (attemptReconnect
        (attemptReconnect wsConnectedEx))))).scheduledDelays
      = [3000, 6000, 12000, 24000, 48000] :=
  ⟨C5_backoff_delay_sequence.1 wsConnectedEx (by decide) (by decide),
   C5_backoff_delay_sequence.2.1 wsExhaustedEx (by decide),
   (C5_backoff_delay_sequence.2.2 wsConnectedEx (by decide) (by decide) (by decide)).1⟩

/-- C9: the reconnect counter is reset to zero only by a successful open
or by an explicit disconnect; an explicit `connect` after the cap is
exhausted does not reset it, so when that explicit attempt fails with a
close event no reconnect is scheduled. -/
theorem C9_counter_reset_policy :
    (∀ (s : WsClient) (e : WsEv), s.reconnectAttempts ≠ 0 →
      (wsStep e s).reconnectAttempts = 0 → e = .openEv ∨ e = .disconnectCall)
    ∧ (∀ (s : WsClient) (c : TraccarConfig) (th : Bool),
        maxReconnectAttempts ≤ s.reconnectAttempts →
        (wsStep (.connectCall c th) s).reconnectAttempts = s.reconnectAttempts
        ∧ (wsStep .closeEv (wsStep (.connectCall c th) s)).scheduledDelays
            = (wsStep (.connectCall c th) s).scheduledDelays
        ∧ (wsStep .closeEv (wsStep (.connectCall c th) s)).pendingTimers
            = (wsStep (.connectCall c th) s).pendingTimers) := by
  constructor
  · intro s e h0 hpost
    cases e with
    | openEv => exact Or.inl rfl
    | disconnectCall => exact Or.inr rfl
    | connectCall c th =>
        exfalso
        have hge := connectBody_att_ge s (some c) th
        simp only [wsStep] at hpost
        omega
    | timerFire th =>
        exfalso
        simp only [wsStep] at hpost
        split at hpost
        · exact h0 hpost
        · have hge := connectBody_att_ge
            { s with pendingTimers := s.pendingTimers - 1 } s.config th
          dsimp only at hge
          omega
    | errorEv =>
        exfalso
        simp only [wsStep] at hpost
        split at hpost
        · exact h0 hpost
        · exact h0 hpost
    | closeEv =>
        exfalso
        simp only [wsStep] at hpost
        split at hpost
        · have hge := attemptReconnect_att_ge
            { s with ws := some ReadyState.closed, isConnecting := false }
          dsimp only at hge
          omega
        · exact h0 hpost
    | staleCloseEv =>
        exfalso
        simp only [wsStep] at hpost
        have hge := attemptReconnect_att_ge { s with isConnecting := false }
        dsimp only at hge
        omega
  · intro s c th h
    have h1 : (wsStep (.connectCall c th) s).reconnectAttempts = s.reconnectAttempts := by
      simp only [wsStep, connectBody]
      split
      · rfl
      · split
        · rw [attemptReconnect_ge { s with config := some c, isConnecting := false } h]
        · rfl
    have hclose := wsStep_close_capped (wsStep (.connectCall c th) s)
      (by rw [h1]; exact h)
    exact ⟨h1, hclose.1, hclose.2⟩

/-- Witness for C9: opening a socket is among the two resetting events,
and at the exhausted example state an explicit connect keeps the counter
and a subsequent close schedules nothing. -/
theorem C9_counter_reset_policy_witness :
    (WsEv.openEv = WsEv.openEv ∨ WsEv.openEv = WsEv.disconnectCall)
    ∧ ((wsStep (.connectCall cfgTokenEx false) wsExhaustedEx).reconnectAttempts
          = wsExhaustedEx.reconnectAttempts
        ∧ (wsStep .closeEv (wsStep (.connectCall cfgTokenEx false) wsExhaustedEx)).scheduledDelays
            = (wsStep (.connectCall cfgTokenEx false) wsExhaustedEx).scheduledDelays
        ∧ (wsStep .closeEv (wsStep (.connectCall cfgTokenEx false) wsExhaustedEx)).pendingTimers
            = (wsStep (.connectCall cfgTokenEx false) wsExhaustedEx).pendingTimers) :=
  ⟨C9_counter_reset_policy.1 wsReconnEx .openEv (by decide) (by decide),
   C9_counter_reset_policy.2 wsExhaustedEx cfgTokenEx false (by decide)⟩

/-! ## Theorems for the handler registry -/

theorem subscribeH_nodup (m : MsgType → List Nat) (t : MsgType) (h : Nat)
    (hnd : ∀ t2, (m t2).Nodup) : ∀ t2, ((subscribeH m t h) t2).Nodup := by
  intro t2
  unfold subscribeH
  split
  · split
    · exact hnd t
    · rename_i hmem
      refine (hnd t).append (List.nodup_singleton h) ?_
      intro a ha hb
      simp only [List.mem_singleton] at hb
      exact hmem (hb ▸ ha)
  · exact hnd t2

theorem subscribeH_mem_self (m : MsgType → List Nat) (t : MsgType) (h : Nat) :
    h ∈ (subscribeH m t h) t := by
  show h ∈ if t = t then (if h ∈ m t then m t else m t ++ [h]) else m t
  rw [if_pos rfl]
  split
  · assumption
  · simp

theorem subscribeH_mem_eq (m : MsgType → List Nat) (t : MsgType) (h : Nat)
    (hmem : h ∈ m t) : subscribeH m t h = m := by
  funext t2
  unfold subscribeH
  by_cases ht : t2 = t
  · subst ht
    simp [hmem]
  · simp [ht]

/-- C10: handler registration is set-based — subscribing the same handler
twice for a kind leaves exactly one registration, so it is notified once
per inbound message of that kind; one unsubscribe call removes it
completely while every other registration, on that kind or any other, is
untouched. -/
theorem C10_handler_registry (m : MsgType → List Nat) (t : MsgType) (h : Nat)
    (hnd : ∀ t2, (m t2).Nodup) :
    subscribeH (subscribeH m t h) t h = subscribeH m t h
    ∧ (notifyOrder (subscribeH (subscribeH m t h) t h) t).count h = 1
    ∧ h ∉ notifyOrder (unsubscribeH (subscribeH (subscribeH m t h) t h) t h) t
    ∧ (∀ (t2 : MsgType) (h2 : Nat), ¬(t2 = t ∧ h2 = h) →
        (h2 ∈ notifyOrder (unsubscribeH (subscribeH (subscribeH m t h) t h) t h) t2
          ↔ h2 ∈ notifyOrder (subscribeH (subscribeH m t h) t h) t2)) := by
  have hidem : subscribeH (subscribeH m t h) t h = subscribeH m t h :=
    subscribeH_mem_eq (subscribeH m t h) t h (subscribeH_mem_self m t h)
  have hnd1 : ∀ t2, ((subscribeH m t h) t2).Nodup := subscribeH_nodup m t h hnd
  refine ⟨hidem, ?_, ?_, ?_⟩
  · rw [hidem]
    exact List.count_eq_one_of_mem (hnd1 t) (subscribeH_mem_self m t h)
  · rw [hidem]
    show h ∉ if t = t then ((subscribeH m t h) t).erase h else (subscribeH m t h) t
    rw [if_pos rfl]
    exact (hnd1 t).not_mem_erase
  · intro t2 h2 hne
    rw [hidem]
    by_cases ht : t2 = t
    · have hne2 : h2 ≠ h := fun he => hne ⟨ht, he⟩
      show (h2 ∈ if t2 = t then ((subscribeH m t h) t).erase h else (subscribeH m t h) t2)
          ↔ h2 ∈ (subscribeH m t h) t2
      rw [if_pos ht, ht]
      rw [(hnd1 t).mem_erase_iff]
      exact ⟨fun hx => hx.2, fun hx => ⟨hne2, hx⟩⟩
    · simp [notifyOrder, unsubscribeH, ht]

/-- Witness for C10 on the empty registry, handler 5 on kind positions,
with handler 7 on kind devices as the untouched bystander. -/
theorem C10_handler_registry_witness :
    subscribeH (subscribeH hreg0 .positions 5) .positions 5 = subscribeH hreg0 .positions 5
    ∧ (notifyOrder (subscribeH (subscribeH hreg0 .positions 5) .positions 5) .positions).count 5 = 1
    ∧ 5 ∉ notifyOrder
        (unsubscribeH (subscribeH (subscribeH hreg0 .positions 5) .positions 5) .positions 5)
        .positions
    ∧ (7 ∈ notifyOrder
          (unsubscribeH (subscribeH (subscribeH hreg0 .positions 5) .positions 5) .positions 5)
          .devices
        ↔ 7 ∈ notifyOrder (subscribeH (subscribeH hreg0 .positions 5) .positions 5) .devices) :=
  have hc := C10_handler_registry hreg0 .positions 5 (fun _ => List.nodup_nil)
  ⟨hc.1, hc.2.1, hc.2.2.1, hc.2.2.2 .devices 7 (by decide)⟩

end ZingelaLocate
